import Mathlib

/-!
Verification of the snapshot differ, relationship resolver and change
aggregator of the ODS tracker (track_changes.py), together with the
reporting-path resolver slice of main.py. JSON-like Python values are
modelled by a mutual inductive type; Python attribute and type errors are
modelled in an Except monad; Python truthiness is made explicit. Every
definition mirrors the corresponding Python source statement for
statement.
-/

mutual
inductive J where
  | null
  | b (x : Bool)
  | s (x : String)
  | arr (xs : JList)
  | obj (fs : JObj)
deriving DecidableEq, Repr

inductive JList where
  | nil
  | cons (hd : J) (tl : JList)
deriving DecidableEq, Repr

inductive JObj where
  | nil
  | cons (k : String) (v : J) (tl : JObj)
deriving DecidableEq, Repr
end

/-- Build a JList from a Lean list (convenience for examples). -/
def jl : List J → JList
  | [] => .nil
  | x :: xs => .cons x (jl xs)

/-- Build a JObj from a Lean association list (convenience for examples). -/
def jo : List (String × J) → JObj
  | [] => .nil
  | (k, v) :: xs => .cons k v (jo xs)

def JList.toList : JList → List J
  | .nil => []
  | .cons h t => h :: t.toList

def JList.isNil : JList → Bool
  | .nil => true
  | .cons _ _ => false

def JObj.isNil : JObj → Bool
  | .nil => true
  | .cons _ _ _ => false

def JObj.keys : JObj → List String
  | .nil => []
  | .cons k _ t => k :: t.keys

/-- First binding for a key in an object, as Python dict lookup. -/
def JObj.lookupF : JObj → String → Option J
  | .nil, _ => none
  | .cons k v t, q => if k = q then some v else t.lookupF q

/-- Python truthiness of a JSON-like value. -/
def truthy : J → Bool
  | .null => false
  | .b x => x
  | .s x => !(x == "")
  | .arr xs => !xs.isNil
  | .obj fs => !fs.isNil

/-- Python exceptions observable in the embedded code. -/
inductive Err where
  | attributeError
  | typeError
deriving DecidableEq, Repr

/-- Python d.get(key, default) with a JSON key: raises AttributeError on a
non-dict receiver, TypeError on an unhashable key, otherwise looks the key
up with the given default. -/
def pyGetK (v : J) (key : J) (dflt : J) : Except Err J :=
  match v with
  | .obj fs =>
    match key with
    | .arr _ => .error .typeError
    | .obj _ => .error .typeError
    | .s k =>
      match fs.lookupF k with
      | some x => .ok x
      | none => .ok dflt
    | _ => .ok dflt
  | _ => .error .attributeError

/-- Python d.get(key, default) with a string key. -/
def pyGet (v : J) (key : String) (dflt : J) : Except Err J := pyGetK v (.s key) dflt

/-- Python d.get(key), defaulting to None. -/
def J.get1 (v : J) (key : String) : Except Err J := pyGet v key .null

/-- Python iteration over a value: lists yield elements, dicts yield their
keys, strings yield one-character strings, everything else raises. -/
def pyIter : J → Except Err (List J)
  | .arr xs => .ok xs.toList
  | .obj fs => .ok (fs.keys.map J.s)
  | .s x => .ok (x.data.map (fun c => J.s (String.mk [c])))
  | _ => .error .typeError

/-- Python any over a generator: short-circuits on the first true element,
propagating an exception raised while testing an element. -/
def pyAny : List J → (J → Except Err Bool) → Except Err Bool
  | [], _ => .ok false
  | x :: rest, p => do
    if (← p x) then pure true else pyAny rest p

/-- Python d.keys() (raises on a non-dict). -/
def pyKeys : J → Except Err (List String)
  | .obj fs => .ok fs.keys
  | _ => .error .attributeError

/-- Python idiom: xs if isinstance(xs, list) else [xs]. -/
def asPyList : J → List J
  | .arr xs => xs.toList
  | v => [v]

/-- The candidate condition of get_current_pcn, with Python left-to-right
short-circuit evaluation: the target's primary role id equals RO272, the
status is Active, and no entry of the Date field has a truthy End. -/
def pcnRelCond (rel : J) : Except Err Bool := do
  let tgt ← pyGet rel "Target" (J.obj .nil)
  let pri ← pyGet tgt "PrimaryRoleId" (J.obj .nil)
  let idv ← pri.get1 "id"
  if idv = J.s "RO272" then do
    let st ← rel.get1 "Status"
    if st = J.s "Active" then do
      let dv ← pyGet rel "Date" (J.arr .nil)
      let ds ← pyIter dv
      let he ← pyAny ds (fun d => do
        let e ← d.get1 "End"
        pure (truthy e))
      pure (!he)
    else pure false
  else pure false

/-- The scanning loop of get_current_pcn: return the first relationship
satisfying the candidate condition, as the Python for-loop does. -/
def pcnScan : List J → Except Err J
  | [] => .ok J.null
  | rel :: rest => do
    if (← pcnRelCond rel) then do
      let tgt ← pyGet rel "Target" (J.obj .nil)
      let oid ← pyGet tgt "OrgId" (J.obj .nil)
      oid.get1 "extension"
    else pcnScan rest

/-- Body of get_current_pcn before its try-except wrapper. -/
def get_current_pcn_body (org_data : J) : Except Err J := do
  let rels0 ← pyGet org_data "Rels" (J.obj .nil)
  let relsV ← pyGet rels0 "Rel" (J.arr .nil)
  pcnScan (asPyList relsV)

/-- get_current_pcn from track_changes.py: any exception in the body is
caught and turned into None. -/
def get_current_pcn (org_data : J) : J :=
  match get_current_pcn_body org_data with
  | .ok v => v
  | .error _ => J.null

/-- The iterable of the role filters in track_changes.py: the expression
new_org.get("Roles", dict()).get("Role", list()) or list(), then iterated;
note there is no isinstance-normalisation here, so a single non-empty
object is iterated as a dict, yielding its keys. -/
def rolesSeq (org : J) : Except Err (List J) := do
  let roles0 ← pyGet org "Roles" (J.obj .nil)
  let roleV ← pyGet roles0 "Role" (J.arr .nil)
  pyIter (if truthy roleV then roleV else J.arr .nil)

/-- The GP-practice class filter of detect_practice_changes. -/
def isPracticeOrg (org : J) : Except Err Bool := do
  let items ← rolesSeq org
  pyAny items (fun r => do
    let i ← r.get1 "id"
    pure (i == J.s "RO76"))

/-- The PCN class filter of detect_pcn_changes: role id RO272 and a truthy
primaryRole flag, with Python short-circuit evaluation. -/
def isPcnOrg (org : J) : Except Err Bool := do
  let items ← rolesSeq org
  pyAny items (fun r => do
    let i ← r.get1 "id"
    if i == J.s "RO272" then do
      let pr ← pyGet r "primaryRole" (J.b false)
      pure (truthy pr)
    else pure false)

/-- get_pcn_name from utils.py. -/
def get_pcn_name (data pcn_ods : J) : Except Err J :=
  if truthy pcn_ods then do
    let orgs ← pyGet data "organisations" (J.obj .nil)
    let entry ← pyGetK orgs pcn_ods (J.obj .nil)
    let od ← pyGet entry "Organisation" (J.obj .nil)
    od.get1 "Name"
  else .ok J.null

/-- A Change Record as built by the differ; fields not used by a given
change kind hold null. -/
structure Change where
  type : String
  ods_code : String
  name : J
  date_of_change : J
  old_status : J
  new_status : J
  old_pcn : J
  old_pcn_name : J
  new_pcn : J
  new_pcn_name : J
deriving DecidableEq, Repr

def mkNewPractice (ods : String) (nm dt : J) : Change :=
  ⟨"new_practice", ods, nm, dt, .null, .null, .null, .null, .null, .null⟩

def mkClosedPractice (ods : String) (nm dt : J) : Change :=
  ⟨"closed_practice", ods, nm, dt, .null, .null, .null, .null, .null, .null⟩

def mkStatusChange (ods : String) (nm os ns dt : J) : Change :=
  ⟨"status_change", ods, nm, dt, os, ns, .null, .null, .null, .null⟩

def mkPcnChange (ods : String) (nm op opn np npn dt : J) : Change :=
  ⟨"pcn_change", ods, nm, dt, .null, .null, op, opn, np, npn⟩

def mkNewPcn (ods : String) (nm dt : J) : Change :=
  ⟨"new_pcn", ods, nm, dt, .null, .null, .null, .null, .null, .null⟩

def mkClosedPcn (ods : String) (nm dt : J) : Change :=
  ⟨"closed_pcn", ods, nm, dt, .null, .null, .null, .null, .null, .null⟩

/-- Python orgs.get(code, dict()).get("Organisation", dict()). -/
def getOrgRec (orgs : J) (ods : String) : Except Err J := do
  let entry ← pyGet orgs ods (J.obj .nil)
  pyGet entry "Organisation" (J.obj .nil)

/-- The status-change step of the practice loop for one code. -/
def statusRecsOf (ods_code : String) (new_org os ns : J) : Except Err (List Change) :=
  if os = ns then pure []
  else do
    let nm ← new_org.get1 "Name"
    let dt ← new_org.get1 "LastChangeDate"
    pure [mkStatusChange ods_code nm os ns dt]

/-- The membership-change step of the practice loop for one code. -/
def pcnRecsOf (old_data new_data : J) (ods_code : String) (new_org old_pcn new_pcn : J) :
    Except Err (List Change) :=
  if old_pcn = new_pcn then pure []
  else do
    let nm ← new_org.get1 "Name"
    let opn ← get_pcn_name old_data old_pcn
    let npn ← get_pcn_name new_data new_pcn
    let dt ← new_org.get1 "LastChangeDate"
    pure [mkPcnChange ods_code nm old_pcn opn new_pcn npn dt]

/-- The body of the practice loop of detect_practice_changes for one code,
after the class filter has been evaluated. -/
def practiceBranch (old_data new_data : J) (ods_code : String) (old_org new_org : J)
    (isP : Bool) : Except Err (List Change) :=
  if !isP then pure []
  else if !truthy old_org then do
    let nm ← new_org.get1 "Name"
    let dt ← new_org.get1 "LastChangeDate"
    pure [mkNewPractice ods_code nm dt]
  else if !truthy new_org then do
    let nm ← old_org.get1 "Name"
    let dt ← old_org.get1 "LastChangeDate"
    pure [mkClosedPractice ods_code nm dt]
  else do
    let os ← old_org.get1 "Status"
    let ns ← new_org.get1 "Status"
    let statusRecs ← statusRecsOf ods_code new_org os ns
    let pcnRecs ← pcnRecsOf old_data new_data ods_code new_org
      (get_current_pcn old_org) (get_current_pcn new_org)
    pure (statusRecs ++ pcnRecs)

/-- One iteration of the detect_practice_changes loop. -/
def practiceCodeChanges (old_data new_data oldOrgs newOrgs : J) (ods_code : String) :
    Except Err (List Change) := do
  let old_org ← getOrgRec oldOrgs ods_code
  let new_org ← getOrgRec newOrgs ods_code
  let isP ← isPracticeOrg new_org
  practiceBranch old_data new_data ods_code old_org new_org isP

/-- The body of the PCN loop of detect_pcn_changes for one code. -/
def pcnBranch (ods_code : String) (old_org new_org : J) (isP : Bool) :
    Except Err (List Change) :=
  if !isP then pure []
  else if !truthy old_org then do
    let nm ← new_org.get1 "Name"
    let dt ← new_org.get1 "LastChangeDate"
    pure [mkNewPcn ods_code nm dt]
  else if !truthy new_org then do
    let nm ← old_org.get1 "Name"
    let dt ← old_org.get1 "LastChangeDate"
    pure [mkClosedPcn ods_code nm dt]
  else do
    let os ← old_org.get1 "Status"
    let ns ← new_org.get1 "Status"
    if os = ns then pure []
    else do
      let nm ← new_org.get1 "Name"
      let dt ← new_org.get1 "LastChangeDate"
      pure [mkStatusChange ods_code nm os ns dt]

/-- One iteration of the detect_pcn_changes loop. -/
def pcnCodeChanges (oldOrgs newOrgs : J) (ods_code : String) : Except Err (List Change) := do
  let old_org ← getOrgRec oldOrgs ods_code
  let new_org ← getOrgRec newOrgs ods_code
  let isP ← isPcnOrg new_org
  pcnBranch ods_code old_org new_org isP

/-- First-occurrence deduplication: Python iterates the union as a set,
whose iteration order is unspecified; it is modelled here as the order of
first occurrence, which no claim depends on. -/
def dedupFirst : List String → List String
  | [] => []
  | k :: rest => k :: (dedupFirst rest).filter (fun x => !(x == k))

/-- The per-code loop shared by both detection passes: concatenates each
code's records and propagates the first exception. -/
def codeLoop (f : String → Except Err (List Change)) : List String → Except Err (List Change)
  | [] => .ok []
  | k :: rest => do
    let cs ← f k
    let more ← codeLoop f rest
    pure (cs ++ more)

/-- detect_practice_changes from track_changes.py. -/
def detect_practice_changes (old_data new_data : J) : Except Err (List Change) := do
  let oldOrgs ← pyGet old_data "organisations" (J.obj .nil)
  let newOrgs ← pyGet new_data "organisations" (J.obj .nil)
  let oldKeys ← pyKeys oldOrgs
  let newKeys ← pyKeys newOrgs
  codeLoop (practiceCodeChanges old_data new_data oldOrgs newOrgs)
    (dedupFirst (oldKeys ++ newKeys))

/-- detect_pcn_changes from track_changes.py. -/
def detect_pcn_changes (old_data new_data : J) : Except Err (List Change) := do
  let oldOrgs ← pyGet old_data "organisations" (J.obj .nil)
  let newOrgs ← pyGet new_data "organisations" (J.obj .nil)
  let oldKeys ← pyKeys oldOrgs
  let newKeys ← pyKeys newOrgs
  codeLoop (pcnCodeChanges oldOrgs newOrgs) (dedupFirst (oldKeys ++ newKeys))

/-- First dict element of a normalized date list, then its key, as the
Python expression next((d.get(key) for d in rel_dates if isinstance(d,
dict)), None) computes it. -/
def firstObj : List J → Option JObj
  | [] => none
  | .obj fs :: _ => some fs
  | _ :: rest => firstObj rest

def lookupD (fs : JObj) (k : String) (dflt : J) : J :=
  match fs.lookupF k with
  | some v => v
  | none => dflt

def firstObjGet (rd : List J) (key : String) : J :=
  match firstObj rd with
  | some fs => lookupD fs key J.null
  | none => J.null

/-- Code-point lexicographic order on char lists, Python's string order. -/
def strLtChars : List Char → List Char → Bool
  | [], [] => false
  | [], _ :: _ => true
  | _ :: _, [] => false
  | a :: as, b :: bs =>
    if a.toNat < b.toNat then true
    else if b.toNat < a.toNat then false
    else strLtChars as bs

def strLt (a b : String) : Bool := strLtChars a.data b.data

/-- Python string comparison a > b; comparing a string against None raises
TypeError, as in the source. -/
def pyGt (a b : J) : Except Err Bool :=
  match a, b with
  | .s x, .s y => .ok (strLt y x)
  | _, _ => .error .typeError

/-- Python membership test of a value in a dict keyed by strings:
unhashable values raise, non-string hashable values are simply absent. -/
def pyInKeys (v : J) (ks : List String) : Except Err Bool :=
  match v with
  | .arr _ => .error .typeError
  | .obj _ => .error .typeError
  | .s k => .ok (ks.contains k)
  | _ => .ok false

/-- The list comprehension selecting relationships whose id is RE8 in
create_practice_pcn_report. -/
def filterRE8 : List J → Except Err (List J)
  | [] => .ok []
  | rel :: rest => do
    let i ← rel.get1 "id"
    let more ← filterRE8 rest
    if i == J.s "RE8" then pure (rel :: more) else pure more

/-- The current-PCN selection loop of create_practice_pcn_report in
main.py (lines 242-265), carrying current_pcn and current_pcn_date:
targets must be keys of the previously built pcns table, and a candidate
replaces the current one when none is selected yet or its start date
compares strictly greater. -/
def reportLoop (pcns : List String) : List J → J → J → Except Err (J × J)
  | [], cur, curDate => .ok (cur, curDate)
  | rel :: rest, cur, curDate => do
    let tgt ← pyGet rel "Target" (J.obj .nil)
    let oid ← pyGet tgt "OrgId" (J.obj .nil)
    let tOds ← oid.get1 "extension"
    let inP ← pyInKeys tOds pcns
    if inP then do
      let datesV ← pyGet rel "Date" (J.arr .nil)
      let rd := asPyList datesV
      let startD := firstObjGet rd "Start"
      let endD := firstObjGet rd "End"
      let st ← rel.get1 "Status"
      if st == J.s "Active" && !truthy endD then do
        let pick ←
          if !truthy cur then pure true
          else if !truthy startD then pure false
          else pyGt startD curDate
        if pick then reportLoop pcns rest tOds startD
        else reportLoop pcns rest cur curDate
      else reportLoop pcns rest cur curDate
    else reportLoop pcns rest cur curDate

/-- The reporting path's current-membership resolution: the slice of
create_practice_pcn_report that computes current_pcn for one practice,
given the codes identified as PCNs in the snapshot. -/
def report_current_pcn (pcns : List String) (org_info : J) : Except Err (J × J) := do
  let rels0 ← pyGet org_info "Rels" (J.obj .nil)
  let relsV ← pyGet rels0 "Rel" (J.arr .nil)
  let pcnRels ← filterRE8 (asPyList relsV)
  reportLoop pcns pcnRels J.null J.null

/-- Summary statistics of one aggregator run, as update_tracked_changes
computes them. -/
structure Summary where
  total_changes : Nat
  practice_total : Nat
  practice_new : Nat
  practice_closed : Nat
  practice_status : Nat
  practice_pcn : Nat
  pcn_total : Nat
  pcn_new : Nat
  pcn_closed : Nat
  pcn_status : Nat
deriving DecidableEq, Repr

/-- One appended entry of tracked_changes.json. -/
structure HistoryEntry where
  date : String
  data_file : String
  summary : Summary
  practice_changes : List Change
  pcn_changes : List Change
deriving DecidableEq, Repr

/-- Python len of a filter by change type. -/
def countType (cs : List Change) (t : String) : Nat :=
  (cs.filter (fun c => c.type == t)).length

def mkSummary (pc nc : List Change) : Summary :=
  ⟨pc.length + nc.length, pc.length,
   countType pc "new_practice", countType pc "closed_practice",
   countType pc "status_change", countType pc "pcn_change",
   nc.length, countType nc "new_pcn", countType nc "closed_pcn",
   countType nc "status_change"⟩

/-- The pure core of update_tracked_changes from track_changes.py: the
history read from disk is a parameter, the run date and data-file name are
parameters, and the written-back history is the result. -/
def update_tracked_changes (pc nc : List Change) (today data_file : String)
    (history : List HistoryEntry) : List HistoryEntry :=
  if pc.isEmpty && nc.isEmpty then history
  else history ++ [⟨today, data_file, mkSummary pc nc, pc, nc⟩]

/-- The snapshot pair threaded through the state-passing form of the
differ: any mutation the Python code performed on old_data or new_data
would appear as a changed component here. -/
structure DiffSt where
  old_data : J
  new_data : J
deriving DecidableEq, Repr

/-- State-passing form of the per-code loop. -/
def codeLoopSt (f : DiffSt → String → Except Err (List Change)) :
    DiffSt → List String → Except Err (List Change) × DiffSt
  | st, [] => (.ok [], st)
  | st, k :: rest =>
    match f st k with
    | .error e => (.error e, st)
    | .ok cs =>
      match codeLoopSt f st rest with
      | (.error e, st1) => (.error e, st1)
      | (.ok more, st1) => (.ok (cs ++ more), st1)

/-- State-passing form of detect_practice_changes. -/
def detect_practice_changes_st (st : DiffSt) : Except Err (List Change) × DiffSt :=
  match pyGet st.old_data "organisations" (J.obj .nil) with
  | .error e => (.error e, st)
  | .ok oldOrgs =>
    match pyGet st.new_data "organisations" (J.obj .nil) with
    | .error e => (.error e, st)
    | .ok newOrgs =>
      match pyKeys oldOrgs with
      | .error e => (.error e, st)
      | .ok oldKeys =>
        match pyKeys newOrgs with
        | .error e => (.error e, st)
        | .ok newKeys =>
          codeLoopSt
            (fun s k => practiceCodeChanges s.old_data s.new_data oldOrgs newOrgs k)
            st (dedupFirst (oldKeys ++ newKeys))

/-- State-passing form of detect_pcn_changes. -/
def detect_pcn_changes_st (st : DiffSt) : Except Err (List Change) × DiffSt :=
  match pyGet st.old_data "organisations" (J.obj .nil) with
  | .error e => (.error e, st)
  | .ok oldOrgs =>
    match pyGet st.new_data "organisations" (J.obj .nil) with
    | .error e => (.error e, st)
    | .ok newOrgs =>
      match pyKeys oldOrgs with
      | .error e => (.error e, st)
      | .ok oldKeys =>
        match pyKeys newOrgs with
        | .error e => (.error e, st)
        | .ok newKeys =>
          codeLoopSt (fun _ k => pcnCodeChanges oldOrgs newOrgs k) st
            (dedupFirst (oldKeys ++ newKeys))

/-- A whole differ run, both passes in sequence, threading the snapshot
state. -/
def run_diff (st : DiffSt) : (Except Err (List Change) × Except Err (List Change)) × DiffSt :=
  let pr := detect_practice_changes_st st
  let qr := detect_pcn_changes_st pr.2
  ((pr.1, qr.1), qr.2)

/-- An open-ended Active network-membership relationship with the given
target code and start date, shaped as in the ODS payload. -/
def netRel (target start : String) : J :=
  J.obj (jo [("id", J.s "RE8"),
    ("Target", J.obj (jo [("OrgId", J.obj (jo [("extension", J.s target)])),
      ("PrimaryRoleId", J.obj (jo [("id", J.s "RO272")]))])),
    ("Status", J.s "Active"),
    ("Date", J.arr (jl [J.obj (jo [("Start", J.s start)])]))])

/-- A network relationship whose Date field is a single object instead of
a sequence: iterating it yields its key as a string. -/
def badDateRel (k : String) (v : J) : J :=
  J.obj (jo [("id", J.s "RE8"),
    ("Target", J.obj (jo [("OrgId", J.obj (jo [("extension", J.s "ZZ")])),
      ("PrimaryRoleId", J.obj (jo [("id", J.s "RO272")]))])),
    ("Status", J.s "Active"),
    ("Date", J.obj (jo [(k, v)]))])

/-- An organisation record holding only a relationship list. -/
def orgRels (rels : List J) : J :=
  J.obj (jo [("Rels", J.obj (jo [("Rel", J.arr (jl rels))]))])

/-- A GP-practice organisation record. -/
def practiceOrg (nm status lcd : String) (rels : List J) : J :=
  J.obj (jo [("Name", J.s nm), ("Status", J.s status),
    ("LastChangeDate", J.s lcd),
    ("Roles", J.obj (jo [("Role", J.arr (jl [J.obj (jo [("id", J.s "RO76")])]))])),
    ("Rels", J.obj (jo [("Rel", J.arr (jl rels))]))])

/-- An organisation record whose Roles.Role field is a single object with
the given id value, rather than a sequence. -/
def badRoleOrg (v : J) : J :=
  J.obj (jo [("Name", J.s "Bad"), ("Status", J.s "Active"),
    ("Roles", J.obj (jo [("Role", J.obj (jo [("id", v)]))]))])

/-- A snapshot holding the given organisation records keyed by code. -/
def snapOf (l : List (String × J)) : J :=
  J.obj (jo [("organisations",
    J.obj (jo (l.map (fun p => (p.1, J.obj (jo [("Organisation", p.2)]))))))])

lemma pure_ok {α : Type} (a : α) : (pure a : Except Err α) = .ok a := rfl

lemma ok_bind {α β : Type} (a : α) (f : α → Except Err β) :
    (Except.ok a : Except Err α) >>= f = f a := rfl

lemma error_bind {α β : Type} (e : Err) (f : α → Except Err β) :
    (Except.error e : Except Err α) >>= f = .error e := rfl

lemma except_bind_ok {α β : Type} {x : Except Err α} {f : α → Except Err β} {b : β}
    (h : x >>= f = .ok b) : ∃ a, x = .ok a ∧ f a = .ok b := by
  cases x with
  | error e => rw [error_bind] at h; exact Except.noConfusion h
  | ok a => exact ⟨a, rfl, h⟩

lemma codeLoop_ok_mem {f : String → Except Err (List Change)} :
    ∀ {codes : List String} {cs : List Change}, codeLoop f codes = .ok cs →
      ∀ k ∈ codes, ∃ l, f k = .ok l ∧ ∀ c ∈ l, c ∈ cs := by
  intro codes
  induction codes with
  | nil => intro cs _ k hk; exact absurd hk (List.not_mem_nil k)
  | cons a rest ih =>
    intro cs h k hk
    simp only [codeLoop] at h
    obtain ⟨l1, h1, h⟩ := except_bind_ok h
    obtain ⟨l2, h2, h⟩ := except_bind_ok h
    rw [pure_ok] at h
    have hcs : cs = l1 ++ l2 := (Except.ok.inj h).symm
    rcases List.mem_cons.mp hk with rfl | hk2
    · exact ⟨l1, h1, fun c hc => hcs ▸ List.mem_append_left _ hc⟩
    · obtain ⟨l, hf, hsub⟩ := ih h2 k hk2
      exact ⟨l, hf, fun c hc => hcs ▸ List.mem_append_right _ (hsub c hc)⟩

lemma codeLoop_ok_src {f : String → Except Err (List Change)} :
    ∀ {codes : List String} {cs : List Change}, codeLoop f codes = .ok cs →
      ∀ c ∈ cs, ∃ k, k ∈ codes ∧ ∃ l, f k = .ok l ∧ c ∈ l := by
  intro codes
  induction codes with
  | nil =>
    intro cs h c hc
    simp only [codeLoop] at h
    have : cs = [] := (Except.ok.inj h).symm
    subst this
    exact absurd hc (List.not_mem_nil c)
  | cons a rest ih =>
    intro cs h c hc
    simp only [codeLoop] at h
    obtain ⟨l1, h1, h⟩ := except_bind_ok h
    obtain ⟨l2, h2, h⟩ := except_bind_ok h
    rw [pure_ok] at h
    have hcs : cs = l1 ++ l2 := (Except.ok.inj h).symm
    subst hcs
    rcases List.mem_append.mp hc with hc1 | hc2
    · exact ⟨a, List.mem_cons_self a rest, l1, h1, hc1⟩
    · obtain ⟨k, hk, l, hf, hcl⟩ := ih h2 c hc2
      exact ⟨k, List.mem_cons_of_mem a hk, l, hf, hcl⟩

lemma codeLoop_ok_all_nil {f : String → Except Err (List Change)}
    (hall : ∀ k l, f k = .ok l → l = []) :
    ∀ {codes : List String} {cs : List Change}, codeLoop f codes = .ok cs → cs = [] := by
  intro codes
  induction codes with
  | nil => intro cs h; exact (Except.ok.inj h).symm
  | cons a rest ih =>
    intro cs h
    simp only [codeLoop] at h
    obtain ⟨l1, h1, h⟩ := except_bind_ok h
    obtain ⟨l2, h2, h⟩ := except_bind_ok h
    rw [pure_ok] at h
    have hcs : cs = l1 ++ l2 := (Except.ok.inj h).symm
    rw [hcs, hall a l1 h1, ih h2]
    rfl

lemma isPracticeOrg_truthy {org : J} (h : isPracticeOrg org = .ok true) :
    truthy org = true := by
  cases org with
  | obj fs =>
    cases fs with
    | nil => exact absurd (Except.ok.inj h) (by decide)
    | cons k v t => rfl
  | null => exact Except.noConfusion h
  | b x => exact Except.noConfusion h
  | s x => exact Except.noConfusion h
  | arr xs => exact Except.noConfusion h

lemma isPcnOrg_truthy {org : J} (h : isPcnOrg org = .ok true) :
    truthy org = true := by
  cases org with
  | obj fs =>
    cases fs with
    | nil => exact absurd (Except.ok.inj h) (by decide)
    | cons k v t => rfl
  | null => exact Except.noConfusion h
  | b x => exact Except.noConfusion h
  | s x => exact Except.noConfusion h
  | arr xs => exact Except.noConfusion h

lemma statusRecsOf_ods {k : String} {no os ns : J} {l : List Change}
    (h : statusRecsOf k no os ns = .ok l) : ∀ c ∈ l, c.ods_code = k := by
  intro c hc
  rw [statusRecsOf] at h
  split at h
  · rw [pure_ok] at h
    rw [← Except.ok.inj h] at hc
    exact absurd hc (List.not_mem_nil c)
  · obtain ⟨nm, _, h⟩ := except_bind_ok h
    obtain ⟨dt, _, h⟩ := except_bind_ok h
    rw [pure_ok] at h
    rw [← Except.ok.inj h] at hc
    rw [List.mem_singleton.mp hc]
    rfl

lemma pcnRecsOf_ods {od nd : J} {k : String} {no op np : J} {l : List Change}
    (h : pcnRecsOf od nd k no op np = .ok l) : ∀ c ∈ l, c.ods_code = k := by
  intro c hc
  rw [pcnRecsOf] at h
  split at h
  · rw [pure_ok] at h
    rw [← Except.ok.inj h] at hc
    exact absurd hc (List.not_mem_nil c)
  · obtain ⟨nm, _, h⟩ := except_bind_ok h
    obtain ⟨opn, _, h⟩ := except_bind_ok h
    obtain ⟨npn, _, h⟩ := except_bind_ok h
    obtain ⟨dt, _, h⟩ := except_bind_ok h
    rw [pure_ok] at h
    rw [← Except.ok.inj h] at hc
    rw [List.mem_singleton.mp hc]
    rfl

lemma practiceBranch_ods {od nd : J} {k : String} {oo no : J} {isP : Bool}
    {l : List Change} (h : practiceBranch od nd k oo no isP = .ok l) :
    ∀ c ∈ l, c.ods_code = k := by
  intro c hc
  rw [practiceBranch] at h
  split at h
  · rw [pure_ok] at h
    rw [← Except.ok.inj h] at hc
    exact absurd hc (List.not_mem_nil c)
  · split at h
    · obtain ⟨nm, _, h⟩ := except_bind_ok h
      obtain ⟨dt, _, h⟩ := except_bind_ok h
      rw [pure_ok] at h
      rw [← Except.ok.inj h] at hc
      rw [List.mem_singleton.mp hc]
      rfl
    · split at h
      · obtain ⟨nm, _, h⟩ := except_bind_ok h
        obtain ⟨dt, _, h⟩ := except_bind_ok h
        rw [pure_ok] at h
        rw [← Except.ok.inj h] at hc
        rw [List.mem_singleton.mp hc]
        rfl
      · obtain ⟨os, _, h⟩ := except_bind_ok h
        obtain ⟨ns, _, h⟩ := except_bind_ok h
        obtain ⟨sr, hsr, h⟩ := except_bind_ok h
        obtain ⟨pr, hpr, h⟩ := except_bind_ok h
        rw [pure_ok] at h
        rw [← Except.ok.inj h] at hc
        rcases List.mem_append.mp hc with hx | hx
        · exact statusRecsOf_ods hsr c hx
        · exact pcnRecsOf_ods hpr c hx

lemma statusRecsOf_type {k : String} {no os ns : J} {l : List Change}
    (h : statusRecsOf k no os ns = .ok l) : ∀ c ∈ l, c.type = "status_change" := by
  intro c hc
  rw [statusRecsOf] at h
  split at h
  · rw [pure_ok] at h
    rw [← Except.ok.inj h] at hc
    exact absurd hc (List.not_mem_nil c)
  · obtain ⟨nm, _, h⟩ := except_bind_ok h
    obtain ⟨dt, _, h⟩ := except_bind_ok h
    rw [pure_ok] at h
    rw [← Except.ok.inj h] at hc
    rw [List.mem_singleton.mp hc]
    rfl

lemma pcnRecsOf_type {od nd : J} {k : String} {no op np : J} {l : List Change}
    (h : pcnRecsOf od nd k no op np = .ok l) : ∀ c ∈ l, c.type = "pcn_change" := by
  intro c hc
  rw [pcnRecsOf] at h
  split at h
  · rw [pure_ok] at h
    rw [← Except.ok.inj h] at hc
    exact absurd hc (List.not_mem_nil c)
  · obtain ⟨nm, _, h⟩ := except_bind_ok h
    obtain ⟨opn, _, h⟩ := except_bind_ok h
    obtain ⟨npn, _, h⟩ := except_bind_ok h
    obtain ⟨dt, _, h⟩ := except_bind_ok h
    rw [pure_ok] at h
    rw [← Except.ok.inj h] at hc
    rw [List.mem_singleton.mp hc]
    rfl

lemma statusRecsOf_self {k : String} {no os : J} {l : List Change}
    (h : statusRecsOf k no os os = .ok l) : l = [] := by
  rw [statusRecsOf, if_pos rfl, pure_ok] at h
  exact (Except.ok.inj h).symm

lemma pcnRecsOf_self {od nd : J} {k : String} {no op : J} {l : List Change}
    (h : pcnRecsOf od nd k no op op = .ok l) : l = [] := by
  rw [pcnRecsOf, if_pos rfl, pure_ok] at h
  exact (Except.ok.inj h).symm

lemma bool_not_eq_true {b : Bool} (hb : ¬((!b) = true)) : b = true := by
  cases b
  · exact absurd rfl hb
  · rfl

lemma practiceCodeChanges_ods {od nd oo no : J} {k : String} {l : List Change}
    (h : practiceCodeChanges od nd oo no k = .ok l) : ∀ c ∈ l, c.ods_code = k := by
  simp only [practiceCodeChanges] at h
  obtain ⟨o1, h1, h⟩ := except_bind_ok h
  obtain ⟨o2, h2, h⟩ := except_bind_ok h
  obtain ⟨b1, h3, h⟩ := except_bind_ok h
  exact practiceBranch_ods h

lemma practiceCodeChanges_no_closed {od nd oo no : J} {k : String} {l : List Change}
    (h : practiceCodeChanges od nd oo no k = .ok l) :
    ∀ c ∈ l, c.type ≠ "closed_practice" := by
  simp only [practiceCodeChanges] at h
  obtain ⟨o1, h1, h⟩ := except_bind_ok h
  obtain ⟨o2, h2, h⟩ := except_bind_ok h
  obtain ⟨b1, h3, h⟩ := except_bind_ok h
  intro c hc
  rw [practiceBranch] at h
  split at h
  · rw [pure_ok] at h
    rw [← Except.ok.inj h] at hc
    exact absurd hc (List.not_mem_nil c)
  · rename_i hb
    have hb1 : b1 = true := bool_not_eq_true hb
    have htr : truthy o2 = true := isPracticeOrg_truthy (hb1 ▸ h3)
    split at h
    · obtain ⟨nm, _, h⟩ := except_bind_ok h
      obtain ⟨dt, _, h⟩ := except_bind_ok h
      rw [pure_ok] at h
      rw [← Except.ok.inj h] at hc
      rw [List.mem_singleton.mp hc]
      exact (by decide : ("new_practice" : String) ≠ "closed_practice")
    · split at h
      · rename_i hcond
        rw [htr] at hcond
        exact absurd hcond (by decide)
      · obtain ⟨os, _, h⟩ := except_bind_ok h
        obtain ⟨ns, _, h⟩ := except_bind_ok h
        obtain ⟨sr, hsr, h⟩ := except_bind_ok h
        obtain ⟨pr, hpr, h⟩ := except_bind_ok h
        rw [pure_ok] at h
        rw [← Except.ok.inj h] at hc
        rcases List.mem_append.mp hc with hx | hx
        · rw [statusRecsOf_type hsr c hx]
          decide
        · rw [pcnRecsOf_type hpr c hx]
          decide

lemma practiceCodeChanges_self {D oo : J} {k : String} {l : List Change}
    (h : practiceCodeChanges D D oo oo k = .ok l) : l = [] := by
  simp only [practiceCodeChanges] at h
  obtain ⟨v, h1, h⟩ := except_bind_ok h
  obtain ⟨v2, h2, h⟩ := except_bind_ok h
  have hv : v = v2 := Except.ok.inj (h1.symm.trans h2)
  subst hv
  obtain ⟨b1, h3, h⟩ := except_bind_ok h
  rw [practiceBranch] at h
  split at h
  · rw [pure_ok] at h
    exact (Except.ok.inj h).symm
  · rename_i hb
    have hb1 : b1 = true := bool_not_eq_true hb
    have htr : truthy v = true := isPracticeOrg_truthy (hb1 ▸ h3)
    split at h
    · rename_i hcond
      rw [htr] at hcond
      exact absurd hcond (by decide)
    · obtain ⟨os, hos, h⟩ := except_bind_ok h
      obtain ⟨ns, hns, h⟩ := except_bind_ok h
      have hosns : os = ns := Except.ok.inj (hos.symm.trans hns)
      subst hosns
      obtain ⟨sr, hsr, h⟩ := except_bind_ok h
      obtain ⟨pr, hpr, h⟩ := except_bind_ok h
      rw [pure_ok] at h
      rw [statusRecsOf_self hsr, pcnRecsOf_self hpr] at h
      exact (Except.ok.inj h).symm

lemma pcnCodeChanges_no_closed {oo no : J} {k : String} {l : List Change}
    (h : pcnCodeChanges oo no k = .ok l) : ∀ c ∈ l, c.type ≠ "closed_pcn" := by
  simp only [pcnCodeChanges] at h
  obtain ⟨o1, h1, h⟩ := except_bind_ok h
  obtain ⟨o2, h2, h⟩ := except_bind_ok h
  obtain ⟨b1, h3, h⟩ := except_bind_ok h
  intro c hc
  rw [pcnBranch] at h
  split at h
  · rw [pure_ok] at h
    rw [← Except.ok.inj h] at hc
    exact absurd hc (List.not_mem_nil c)
  · rename_i hb
    have hb1 : b1 = true := bool_not_eq_true hb
    have htr : truthy o2 = true := isPcnOrg_truthy (hb1 ▸ h3)
    split at h
    · obtain ⟨nm, _, h⟩ := except_bind_ok h
      obtain ⟨dt, _, h⟩ := except_bind_ok h
      rw [pure_ok] at h
      rw [← Except.ok.inj h] at hc
      rw [List.mem_singleton.mp hc]
      exact (by decide : ("new_pcn" : String) ≠ "closed_pcn")
    · split at h
      · rename_i hcond
        rw [htr] at hcond
        exact absurd hcond (by decide)
      · obtain ⟨os, _, h⟩ := except_bind_ok h
        obtain ⟨ns, _, h⟩ := except_bind_ok h
        split at h
        · rw [pure_ok] at h
          rw [← Except.ok.inj h] at hc
          exact absurd hc (List.not_mem_nil c)
        · obtain ⟨nm, _, h⟩ := except_bind_ok h
          obtain ⟨dt, _, h⟩ := except_bind_ok h
          rw [pure_ok] at h
          rw [← Except.ok.inj h] at hc
          rw [List.mem_singleton.mp hc]
          exact (by decide : ("status_change" : String) ≠ "closed_pcn")

lemma pcnCodeChanges_self {oo : J} {k : String} {l : List Change}
    (h : pcnCodeChanges oo oo k = .ok l) : l = [] := by
  simp only [pcnCodeChanges] at h
  obtain ⟨v, h1, h⟩ := except_bind_ok h
  obtain ⟨v2, h2, h⟩ := except_bind_ok h
  have hv : v = v2 := Except.ok.inj (h1.symm.trans h2)
  subst hv
  obtain ⟨b1, h3, h⟩ := except_bind_ok h
  rw [pcnBranch] at h
  split at h
  · rw [pure_ok] at h
    exact (Except.ok.inj h).symm
  · rename_i hb
    have hb1 : b1 = true := bool_not_eq_true hb
    have htr : truthy v = true := isPcnOrg_truthy (hb1 ▸ h3)
    split at h
    · rename_i hcond
      rw [htr] at hcond
      exact absurd hcond (by decide)
    · obtain ⟨os, hos, h⟩ := except_bind_ok h
      obtain ⟨ns, hns, h⟩ := except_bind_ok h
      have hosns : os = ns := Except.ok.inj (hos.symm.trans hns)
      subst hosns
      rw [if_pos rfl, pure_ok] at h
      exact (Except.ok.inj h).symm

lemma detect_practice_self {S : J} {cs : List Change}
    (h : detect_practice_changes S S = .ok cs) : cs = [] := by
  simp only [detect_practice_changes] at h
  obtain ⟨oo, h1, h⟩ := except_bind_ok h
  obtain ⟨no, h2, h⟩ := except_bind_ok h
  have hoo : oo = no := Except.ok.inj (h1.symm.trans h2)
  subst hoo
  obtain ⟨ks1, h3, h⟩ := except_bind_ok h
  obtain ⟨ks2, h4, h⟩ := except_bind_ok h
  exact codeLoop_ok_all_nil (fun k l hl => practiceCodeChanges_self hl) h

lemma detect_pcn_self {S : J} {cs : List Change}
    (h : detect_pcn_changes S S = .ok cs) : cs = [] := by
  simp only [detect_pcn_changes] at h
  obtain ⟨oo, h1, h⟩ := except_bind_ok h
  obtain ⟨no, h2, h⟩ := except_bind_ok h
  have hoo : oo = no := Except.ok.inj (h1.symm.trans h2)
  subst hoo
  obtain ⟨ks1, h3, h⟩ := except_bind_ok h
  obtain ⟨ks2, h4, h⟩ := except_bind_ok h
  exact codeLoop_ok_all_nil (fun k l hl => pcnCodeChanges_self hl) h

lemma mem_dedupFirst {a : String} : ∀ {l : List String}, a ∈ l → a ∈ dedupFirst l := by
  intro l
  induction l with
  | nil => intro h; exact absurd h (List.not_mem_nil a)
  | cons x rest ih =>
    intro h
    rw [dedupFirst]
    rcases List.mem_cons.mp h with rfl | h2
    · exact List.mem_cons_self _ _
    · by_cases hax : a = x
      · subst hax
        exact List.mem_cons_self _ _
      · refine List.mem_cons_of_mem _ (List.mem_filter.mpr ⟨ih h2, ?_⟩)
        simp [hax]

lemma lookupF_none_of_not_mem : ∀ (fs : JObj) (k : String), k ∉ fs.keys → fs.lookupF k = none
  | .nil, _, _ => rfl
  | .cons a v t, k, hk => by
    rw [JObj.lookupF]
    have h1 : ¬(a = k) := by
      intro h
      exact hk (by rw [JObj.keys, h]; exact List.mem_cons_self _ _)
    rw [if_neg h1]
    exact lookupF_none_of_not_mem t k (fun hm => hk (by
      rw [JObj.keys]
      exact List.mem_cons_of_mem _ hm))

lemma getOrgRec_default {fs : JObj} {k : String} (hk : fs.lookupF k = none) :
    getOrgRec (J.obj fs) k = .ok (J.obj .nil) := by
  simp only [getOrgRec, pyGet, pyGetK, hk, ok_bind]
  rfl

lemma mem_keys_of_getOrgRec_truthy {fs : JObj} {k : String} {org : J}
    (h : getOrgRec (J.obj fs) k = .ok org) (ht : truthy org = true) : k ∈ fs.keys := by
  by_contra hk
  have h0 := lookupF_none_of_not_mem fs k hk
  rw [getOrgRec_default h0] at h
  rw [← Except.ok.inj h] at ht
  exact absurd ht (by decide)

/-- Claim C2 (amended): among candidate relationships (network primary
role target, Active status, no date interval with an end), get_current_pcn
returns the first candidate in relationship-list order; start dates are
never compared, so the first-listed target wins whatever the two start
dates are. -/
theorem c2_first_candidate_wins (a s1 b s2 : String) :
    get_current_pcn (orgRels [netRel a s1, netRel b s2]) = J.s a := rfl

/-- Claim C2 counterexample: with R1 (network NETA, Active, no end, start
2020-01-01) listed before R2 (network NETB, Active, no end, start
2021-06-01), resolution yields NETA, not the latest-start target NETB the
claim requires. -/
theorem c2_latest_start_cx :
    get_current_pcn (orgRels [netRel "NETA" "2020-01-01", netRel "NETB" "2021-06-01"]) =
      J.s "NETA" ∧ (J.s "NETA" : J) ≠ J.s "NETB" :=
  ⟨rfl, by decide⟩

/-- Claim C3 (amended): when an organisation record encodes its role field
as a single non-empty object, both change-detection passes raise an
attribute error instead of skipping the record; only absent, empty or
sequence-shaped role fields are handled without raising. -/
theorem c3_single_object_role_raises (v : J) :
    detect_practice_changes (snapOf []) (snapOf [("P1", badRoleOrg v)]) =
      .error .attributeError ∧
    detect_pcn_changes (snapOf []) (snapOf [("P1", badRoleOrg v)]) =
      .error .attributeError :=
  ⟨rfl, rfl⟩

/-- Claim C3 counterexample: a snapshot pair whose new snapshot holds one
record with a single-object role field makes detect_practice_changes
raise, refuting the claim that the change-detection functions complete
without raising and skip such records. -/
theorem c3_single_object_role_raises_cx :
    detect_practice_changes (snapOf []) (snapOf [("P1", badRoleOrg (J.s "RO76"))]) =
      .error .attributeError :=
  rfl

/-- Claim C4 (amended): membership resolution never consults the snapshot,
so a relationship whose target code is absent from the snapshot is still
selected as current membership; only the display-name lookup of such a
code then yields null. -/
theorem c4_resolution_ignores_snapshot (t : String) :
    get_current_pcn (orgRels [netRel t "2020-01-01"]) = J.s t ∧
    get_pcn_name (snapOf []) (J.s t) = .ok J.null := by
  refine ⟨rfl, ?_⟩
  rw [get_pcn_name]
  split
  · rfl
  · rfl

/-- Claim C4 counterexample: in a snapshot whose only organisation is P1,
P1's sole relationship targets X9, which is not an organisation code of
the snapshot (its record lookup falls back to the empty default), yet
resolution yields X9 rather than no membership. -/
theorem c4_unresolvable_target_cx :
    getOrgRec (J.obj (jo [("P1",
      J.obj (jo [("Organisation", orgRels [netRel "X9" "2020-01-01"])]))])) "X9" =
      .ok (J.obj .nil) ∧
    get_current_pcn (orgRels [netRel "X9" "2020-01-01"]) = J.s "X9" ∧
    (J.s "X9" : J) ≠ J.null :=
  ⟨rfl, rfl, by decide⟩

/-- Claim C10: get_current_pcn is total (every exception of its body is
caught and becomes null, otherwise the body's value is returned), but not
per-relationship isolated: a malformed Active network relationship whose
date field is a single object makes the whole resolution return null,
suppressing a valid open-ended Active candidate later in the list, which
alone would resolve. -/
theorem c10_resolution_total_not_isolated :
    (∀ org_data, (∃ e, get_current_pcn_body org_data = .error e ∧
        get_current_pcn org_data = J.null) ∨
      (∃ v, get_current_pcn_body org_data = .ok v ∧ get_current_pcn org_data = v)) ∧
    (∀ k v t s0, get_current_pcn (orgRels [badDateRel k v, netRel t s0]) = J.null) ∧
    (∀ t s0, get_current_pcn (orgRels [netRel t s0]) = J.s t) := by
  refine ⟨?_, ?_, ?_⟩
  · intro org
    cases h : get_current_pcn_body org with
    | error e => exact Or.inl ⟨e, rfl, by simp [get_current_pcn, h]⟩
    | ok v => exact Or.inr ⟨v, rfl, by simp [get_current_pcn, h]⟩
  · intro k v t s0
    rfl
  · intro t s0
    rfl

/-- Claim C7: diffing a snapshot against itself yields zero Change
Records in the practice pass and in the network pass. -/
theorem c7_diff_self_empty (S : J) :
    (∀ cs, detect_practice_changes S S = .ok cs → cs = []) ∧
    (∀ cs, detect_pcn_changes S S = .ok cs → cs = []) :=
  ⟨fun _ h => detect_practice_self h, fun _ h => detect_pcn_self h⟩

/-- Claim C7 witness: a concrete snapshot diffed against itself, where
both passes complete and return the empty change list. -/
theorem c7_diff_self_empty_w :
    detect_practice_changes
      (snapOf [("P1", practiceOrg "Alpha" "Active" "2024-01-01" [netRel "N1" "2020-01-01"])])
      (snapOf [("P1", practiceOrg "Alpha" "Active" "2024-01-01" [netRel "N1" "2020-01-01"])]) =
      .ok [] ∧
    detect_pcn_changes
      (snapOf [("P1", practiceOrg "Alpha" "Active" "2024-01-01" [netRel "N1" "2020-01-01"])])
      (snapOf [("P1", practiceOrg "Alpha" "Active" "2024-01-01" [netRel "N1" "2020-01-01"])]) =
      .ok [] ∧
    ([] : List Change) = [] :=
  ⟨rfl, rfl,
    (c7_diff_self_empty
      (snapOf [("P1", practiceOrg "Alpha" "Active" "2024-01-01" [netRel "N1" "2020-01-01"])])).1
      [] rfl⟩

/-- Claim C1: for every snapshot pair, no closed-practice and no
closed-pcn Change Record is ever emitted, because both class filters are
evaluated against the new snapshot, where a disappeared organisation is
absent, so such codes are skipped and the closed branches are
unreachable. -/
theorem c1_closed_records_never_emitted (old_data new_data : J) :
    (∀ cs, detect_practice_changes old_data new_data = .ok cs →
      ∀ c ∈ cs, c.type ≠ "closed_practice") ∧
    (∀ cs, detect_pcn_changes old_data new_data = .ok cs →
      ∀ c ∈ cs, c.type ≠ "closed_pcn") := by
  constructor
  · intro cs h c hc
    simp only [detect_practice_changes] at h
    obtain ⟨oo, h1, h⟩ := except_bind_ok h
    obtain ⟨no, h2, h⟩ := except_bind_ok h
    obtain ⟨ks1, h3, h⟩ := except_bind_ok h
    obtain ⟨ks2, h4, h⟩ := except_bind_ok h
    obtain ⟨k, _, l, hf, hcl⟩ := codeLoop_ok_src h c hc
    exact practiceCodeChanges_no_closed hf c hcl
  · intro cs h c hc
    simp only [detect_pcn_changes] at h
    obtain ⟨oo, h1, h⟩ := except_bind_ok h
    obtain ⟨no, h2, h⟩ := except_bind_ok h
    obtain ⟨ks1, h3, h⟩ := except_bind_ok h
    obtain ⟨ks2, h4, h⟩ := except_bind_ok h
    obtain ⟨k, _, l, hf, hcl⟩ := codeLoop_ok_src h c hc
    exact pcnCodeChanges_no_closed hf c hcl

/-- Claim C1 witness: old holds GP practice P1 (role RO76, name Alpha),
new is empty; the run completes with zero change records, so in
particular no closed record, exhibiting the unreachable closed branch at
the concrete failing input. -/
theorem c1_closed_records_never_emitted_w :
    detect_practice_changes
      (snapOf [("P1", practiceOrg "Alpha" "Active" "2024-01-01" [])]) (snapOf []) = .ok [] ∧
    detect_pcn_changes
      (snapOf [("P1", practiceOrg "Alpha" "Active" "2024-01-01" [])]) (snapOf []) = .ok [] ∧
    (∀ c ∈ ([] : List Change), c.type ≠ "closed_practice") :=
  ⟨rfl, rfl,
    (c1_closed_records_never_emitted
      (snapOf [("P1", practiceOrg "Alpha" "Active" "2024-01-01" [])]) (snapOf [])).1 [] rfl⟩

lemma codeLoopSt_eq (f : DiffSt → String → Except Err (List Change))
    (g : String → Except Err (List Change)) (st : DiffSt)
    (hfg : ∀ k, f st k = g k) :
    ∀ codes, codeLoopSt f st codes = (codeLoop g codes, st) := by
  intro codes
  induction codes with
  | nil => rfl
  | cons a rest ih =>
    simp only [codeLoopSt, codeLoop, hfg a]
    cases hg : g a with
    | error e => simp only [error_bind]
    | ok cs =>
      simp only [ok_bind, ih]
      cases hr : codeLoop g rest with
      | error e => simp only [error_bind]
      | ok more => simp only [ok_bind, pure_ok]

lemma detect_practice_changes_st_eq (st : DiffSt) :
    detect_practice_changes_st st =
      (detect_practice_changes st.old_data st.new_data, st) := by
  rw [detect_practice_changes_st, detect_practice_changes]
  cases h1 : pyGet st.old_data "organisations" (J.obj .nil) with
  | error e => simp only [error_bind]
  | ok oo =>
    simp only [ok_bind]
    cases h2 : pyGet st.new_data "organisations" (J.obj .nil) with
    | error e => simp only [error_bind]
    | ok no =>
      simp only [ok_bind]
      cases h3 : pyKeys oo with
      | error e => simp only [error_bind]
      | ok ks1 =>
        simp only [ok_bind]
        cases h4 : pyKeys no with
        | error e => simp only [error_bind]
        | ok ks2 =>
          simp only [ok_bind]
          exact codeLoopSt_eq _ _ st (fun k => rfl) _

lemma detect_pcn_changes_st_eq (st : DiffSt) :
    detect_pcn_changes_st st =
      (detect_pcn_changes st.old_data st.new_data, st) := by
  rw [detect_pcn_changes_st, detect_pcn_changes]
  cases h1 : pyGet st.old_data "organisations" (J.obj .nil) with
  | error e => simp only [error_bind]
  | ok oo =>
    simp only [ok_bind]
    cases h2 : pyGet st.new_data "organisations" (J.obj .nil) with
    | error e => simp only [error_bind]
    | ok no =>
      simp only [ok_bind]
      cases h3 : pyKeys oo with
      | error e => simp only [error_bind]
      | ok ks1 =>
        simp only [ok_bind]
        cases h4 : pyKeys no with
        | error e => simp only [error_bind]
        | ok ks2 =>
          simp only [ok_bind]
          exact codeLoopSt_eq _ _ st (fun k => rfl) _

/-- Claim C9: a whole differ run in state-passing form returns the
snapshot pair unchanged, and each pass's result coincides with the pure
differ applied to the untouched snapshots, so a snapshot can be reused
across comparisons. In the embedding every step that reads old_data or
new_data threads the state, so any mutation performed by the source would
surface as a changed final state. -/
theorem c9_diff_preserves_snapshots (st : DiffSt) :
    (run_diff st).2 = st ∧
    (run_diff st).1.1 = detect_practice_changes st.old_data st.new_data ∧
    (run_diff st).1.2 = detect_pcn_changes st.old_data st.new_data := by
  simp [run_diff, detect_practice_changes_st_eq, detect_pcn_changes_st_eq]

lemma countType_eq_countP (cs : List Change) (t : String) :
    countType cs t = cs.countP (fun c => c.type == t) := by
  rw [countType, List.countP_eq_length_filter]

/-- Claim C8: the aggregator appends nothing when both change lists are
empty, and otherwise appends exactly one entry whose summary counts, per
entity class and change kind, equal the number of Change Records of that
kind, and whose total equals the sum of the two lists' lengths. -/
theorem c8_aggregator_summary (pc nc : List Change) (d f : String)
    (h : List HistoryEntry) :
    (pc = [] ∧ nc = [] → update_tracked_changes pc nc d f h = h) ∧
    (pc ≠ [] ∨ nc ≠ [] → ∃ e, update_tracked_changes pc nc d f h = h ++ [e] ∧
      e.date = d ∧ e.data_file = f ∧
      e.practice_changes = pc ∧ e.pcn_changes = nc ∧
      e.summary.total_changes = pc.length + nc.length ∧
      e.summary.practice_total = pc.length ∧
      e.summary.pcn_total = nc.length ∧
      e.summary.practice_new = pc.countP (fun c => c.type == "new_practice") ∧
      e.summary.practice_closed = pc.countP (fun c => c.type == "closed_practice") ∧
      e.summary.practice_status = pc.countP (fun c => c.type == "status_change") ∧
      e.summary.practice_pcn = pc.countP (fun c => c.type == "pcn_change") ∧
      e.summary.pcn_new = nc.countP (fun c => c.type == "new_pcn") ∧
      e.summary.pcn_closed = nc.countP (fun c => c.type == "closed_pcn") ∧
      e.summary.pcn_status = nc.countP (fun c => c.type == "status_change")) := by
  constructor
  · rintro ⟨rfl, rfl⟩
    rfl
  · intro hne
    have hcond : (pc.isEmpty && nc.isEmpty) = false := by
      rcases hne with h1 | h1
      · cases pc
        · exact absurd rfl h1
        · rfl
      · cases nc
        · exact absurd rfl h1
        · cases pc
          · rfl
          · rfl
    refine ⟨⟨d, f, mkSummary pc nc, pc, nc⟩, ?_, rfl, rfl, rfl, rfl, rfl, rfl, rfl,
      countType_eq_countP pc "new_practice",
      countType_eq_countP pc "closed_practice",
      countType_eq_countP pc "status_change",
      countType_eq_countP pc "pcn_change",
      countType_eq_countP nc "new_pcn",
      countType_eq_countP nc "closed_pcn",
      countType_eq_countP nc "status_change"⟩
    rw [update_tracked_changes, hcond, if_neg (by decide : ¬(false = true))]

/-- Claim C8 witness: an empty run appends nothing, and a run with one
new-practice record appends exactly one entry with the stated counts. -/
theorem c8_aggregator_summary_w :
    update_tracked_changes [] [] "2024-03-01" "data.json" [] = [] ∧
    (∃ e, update_tracked_changes [mkNewPractice "P1" J.null J.null] []
        "2024-03-01" "data.json" [] = [] ++ [e] ∧
      e.date = "2024-03-01" ∧ e.data_file = "data.json" ∧
      e.practice_changes = [mkNewPractice "P1" J.null J.null] ∧ e.pcn_changes = [] ∧
      e.summary.total_changes =
        [mkNewPractice "P1" J.null J.null].length + List.length ([] : List Change) ∧
      e.summary.practice_total = [mkNewPractice "P1" J.null J.null].length ∧
      e.summary.pcn_total = List.length ([] : List Change) ∧
      e.summary.practice_new =
        [mkNewPractice "P1" J.null J.null].countP (fun c => c.type == "new_practice") ∧
      e.summary.practice_closed =
        [mkNewPractice "P1" J.null J.null].countP (fun c => c.type == "closed_practice") ∧
      e.summary.practice_status =
        [mkNewPractice "P1" J.null J.null].countP (fun c => c.type == "status_change") ∧
      e.summary.practice_pcn =
        [mkNewPractice "P1" J.null J.null].countP (fun c => c.type == "pcn_change") ∧
      e.summary.pcn_new = List.countP (fun c => c.type == "new_pcn") ([] : List Change) ∧
      e.summary.pcn_closed = List.countP (fun c => c.type == "closed_pcn") ([] : List Change) ∧
      e.summary.pcn_status = List.countP (fun c => c.type == "status_change") ([] : List Change)) :=
  ⟨(c8_aggregator_summary [] [] "2024-03-01" "data.json" []).1 ⟨rfl, rfl⟩,
   (c8_aggregator_summary [mkNewPractice "P1" J.null J.null] [] "2024-03-01" "data.json" []).2
     (Or.inl (List.cons_ne_nil _ _))⟩

/-- Claim C5 (amended): the diffing path and the reporting path implement
different resolution algorithms and can disagree: for a practice with two
open-ended Active network relationships to snapshot-present networks PCNA
(start s1, listed first) and PCNB (start s2, non-empty and greater than
s1), get_current_pcn resolves PCNA while the reporting path resolves
PCNB. -/
theorem c5_paths_disagree (s1 s2 : String)
    (h2 : truthy (J.s s2) = true)
    (hgt : pyGt (J.s s2) (J.s s1) = .ok true) :
    get_current_pcn (orgRels [netRel "PCNA" s1, netRel "PCNB" s2]) = J.s "PCNA" ∧
    report_current_pcn ["PCNA", "PCNB"] (orgRels [netRel "PCNA" s1, netRel "PCNB" s2]) =
      .ok (J.s "PCNB", J.s s2) := by
  refine ⟨rfl, ?_⟩
  have e1 : report_current_pcn ["PCNA", "PCNB"]
      (orgRels [netRel "PCNA" s1, netRel "PCNB" s2]) =
      reportLoop ["PCNA", "PCNB"] [netRel "PCNB" s2] (J.s "PCNA") (J.s s1) := rfl
  rw [e1]
  show (do
    let pick ←
      if !truthy (J.s s2) then (pure false : Except Err Bool)
      else pyGt (J.s s2) (J.s s1)
    if pick then reportLoop ["PCNA", "PCNB"] [] (J.s "PCNB") (J.s s2)
    else reportLoop ["PCNA", "PCNB"] [] (J.s "PCNA") (J.s s1)) = .ok (J.s "PCNB", J.s s2)
  rw [h2, hgt]
  rfl

/-- Claim C5 counterexample: on the same organisation record and snapshot
PCN set, the diffing path resolves PCNA and the reporting path resolves
PCNB, so the two entry points disagree about current membership. -/
theorem c5_paths_disagree_cx :
    get_current_pcn
      (orgRels [netRel "PCNA" "2020-01-01", netRel "PCNB" "2021-06-01"]) = J.s "PCNA" ∧
    report_current_pcn ["PCNA", "PCNB"]
      (orgRels [netRel "PCNA" "2020-01-01", netRel "PCNB" "2021-06-01"]) =
      .ok (J.s "PCNB", J.s "2021-06-01") ∧
    (J.s "PCNA" : J) ≠ J.s "PCNB" :=
  ⟨rfl, rfl, by decide⟩

/-- Claim C5 witness: the amended theorem applied at the concrete start
dates 2020-01-01 and 2021-06-01. -/
theorem c5_paths_disagree_w :
    truthy (J.s "2021-06-01") = true ∧
    pyGt (J.s "2021-06-01") (J.s "2020-01-01") = .ok true ∧
    report_current_pcn ["PCNA", "PCNB"]
      (orgRels [netRel "PCNA" "2020-01-01", netRel "PCNB" "2021-06-01"]) =
      .ok (J.s "PCNB", J.s "2021-06-01") :=
  ⟨rfl, rfl, (c5_paths_disagree "2020-01-01" "2021-06-01" rfl rfl).2⟩

/-- Claim C6: for a code present in both snapshots that passes the
practice filter, with unchanged status but different resolved current
membership, the practice pass emits a membership-change record carrying
the old and new membership codes, and emits no status-change record for
that code. -/
theorem c6_membership_change_independent
    (old_data new_data : J) (k : String) (cs : List Change)
    (oOrgs nOrgs old_org new_org : J)
    (hdet : detect_practice_changes old_data new_data = .ok cs)
    (hoo : pyGet old_data "organisations" (J.obj .nil) = .ok oOrgs)
    (hno : pyGet new_data "organisations" (J.obj .nil) = .ok nOrgs)
    (ho : getOrgRec oOrgs k = .ok old_org)
    (hn : getOrgRec nOrgs k = .ok new_org)
    (hfilt : isPracticeOrg new_org = .ok true)
    (hold : truthy old_org = true)
    (hstat : J.get1 old_org "Status" = J.get1 new_org "Status")
    (hne : get_current_pcn old_org ≠ get_current_pcn new_org) :
    (∃ c ∈ cs, c.type = "pcn_change" ∧ c.ods_code = k ∧
      c.old_pcn = get_current_pcn old_org ∧ c.new_pcn = get_current_pcn new_org) ∧
    (∀ c ∈ cs, c.ods_code = k → c.type ≠ "status_change") := by
  simp only [detect_practice_changes] at hdet
  obtain ⟨oo, h1, hdet⟩ := except_bind_ok hdet
  have hooeq : oo = oOrgs := Except.ok.inj (h1.symm.trans hoo)
  subst hooeq
  obtain ⟨no, h2, hdet⟩ := except_bind_ok hdet
  have hnoeq : no = nOrgs := Except.ok.inj (h2.symm.trans hno)
  subst hnoeq
  obtain ⟨ks1, h3, hdet⟩ := except_bind_ok hdet
  obtain ⟨ks2, h4, hdet⟩ := except_bind_ok hdet
  have hfs : ∃ fs : JObj, oo = J.obj fs ∧ ks1 = JObj.keys fs := by
    cases oo with
    | obj fs => exact ⟨fs, rfl, (Except.ok.inj h3).symm⟩
    | null => exact Except.noConfusion h3
    | b x => exact Except.noConfusion h3
    | s x => exact Except.noConfusion h3
    | arr xs => exact Except.noConfusion h3
  obtain ⟨fs, rfl, rfl⟩ := hfs
  have hk1 : k ∈ JObj.keys fs := mem_keys_of_getOrgRec_truthy ho hold
  have hk : k ∈ dedupFirst (JObj.keys fs ++ ks2) :=
    mem_dedupFirst (List.mem_append_left _ hk1)
  obtain ⟨l, hf, hsub⟩ := codeLoop_ok_mem hdet k hk
  have hforig := hf
  simp only [practiceCodeChanges, ho, hn, hfilt, ok_bind] at hf
  have hnew : truthy new_org = true := isPracticeOrg_truthy hfilt
  rw [practiceBranch] at hf
  rw [if_neg (by decide : ¬((!true) = true))] at hf
  rw [hold, hnew] at hf
  rw [if_neg (by decide : ¬((!true) = true))] at hf
  rw [if_neg (by decide : ¬((!true) = true))] at hf
  obtain ⟨os, hos, hf⟩ := except_bind_ok hf
  obtain ⟨ns, hns, hf⟩ := except_bind_ok hf
  have hosns : os = ns := Except.ok.inj ((hos.symm.trans hstat).trans hns)
  subst hosns
  obtain ⟨sr, hsr, hf⟩ := except_bind_ok hf
  have hsr0 : sr = [] := statusRecsOf_self hsr
  subst hsr0
  obtain ⟨pr, hpr, hf⟩ := except_bind_ok hf
  rw [pcnRecsOf, if_neg hne] at hpr
  obtain ⟨nm, hnm, hpr⟩ := except_bind_ok hpr
  obtain ⟨opn, hopn, hpr⟩ := except_bind_ok hpr
  obtain ⟨npn, hnpn, hpr⟩ := except_bind_ok hpr
  obtain ⟨dt, hdt, hpr⟩ := except_bind_ok hpr
  rw [pure_ok] at hpr
  have hprv : pr =
      [mkPcnChange k nm (get_current_pcn old_org) opn (get_current_pcn new_org) npn dt] :=
    (Except.ok.inj hpr).symm
  subst hprv
  rw [pure_ok] at hf
  have hlv : l =
      [mkPcnChange k nm (get_current_pcn old_org) opn (get_current_pcn new_org) npn dt] := by
    have hx := (Except.ok.inj hf).symm
    simpa using hx
  constructor
  · refine ⟨mkPcnChange k nm (get_current_pcn old_org) opn (get_current_pcn new_org) npn dt,
      hsub _ ?_, rfl, rfl, rfl, rfl⟩
    rw [hlv]
    exact List.mem_singleton.mpr rfl
  · intro c hc hck
    obtain ⟨k2, hk2mem, l2, hf2, hcl2⟩ := codeLoop_ok_src hdet c hc
    have hck2 : c.ods_code = k2 := practiceCodeChanges_ods hf2 c hcl2
    have hk2k : k2 = k := by
      rw [← hck2]
      exact hck
    subst hk2k
    have hl2 : l2 = l := Except.ok.inj (hf2.symm.trans hforig)
    subst hl2
    rw [hlv] at hcl2
    rw [List.mem_singleton.mp hcl2]
    exact (by decide : ("pcn_change" : String) ≠ "status_change")

/-- Claim C6 witness: practice P1 is Active in both snapshots but its
resolved membership moves from N1 to N2; the pass emits exactly the
membership-change record and no status-change record. -/
theorem c6_membership_change_independent_w :
    (∃ c ∈ [mkPcnChange "P1" (J.s "Alpha") (J.s "N1") J.null (J.s "N2") J.null
        (J.s "2024-02-01")],
      c.type = "pcn_change" ∧ c.ods_code = "P1" ∧
      c.old_pcn = get_current_pcn
        (practiceOrg "Alpha" "Active" "2024-01-01" [netRel "N1" "2020-01-01"]) ∧
      c.new_pcn = get_current_pcn
        (practiceOrg "Alpha" "Active" "2024-02-01" [netRel "N2" "2021-06-01"])) ∧
    (∀ c ∈ [mkPcnChange "P1" (J.s "Alpha") (J.s "N1") J.null (J.s "N2") J.null
        (J.s "2024-02-01")],
      c.ods_code = "P1" → c.type ≠ "status_change") :=
  c6_membership_change_independent
    (snapOf [("P1", practiceOrg "Alpha" "Active" "2024-01-01" [netRel "N1" "2020-01-01"])])
    (snapOf [("P1", practiceOrg "Alpha" "Active" "2024-02-01" [netRel "N2" "2021-06-01"])])
    "P1"
    [mkPcnChange "P1" (J.s "Alpha") (J.s "N1") J.null (J.s "N2") J.null (J.s "2024-02-01")]
    (J.obj (jo [("P1", J.obj (jo [("Organisation",
      practiceOrg "Alpha" "Active" "2024-01-01" [netRel "N1" "2020-01-01"])]))]))
    (J.obj (jo [("P1", J.obj (jo [("Organisation",
      practiceOrg "Alpha" "Active" "2024-02-01" [netRel "N2" "2021-06-01"])]))]))
    (practiceOrg "Alpha" "Active" "2024-01-01" [netRel "N1" "2020-01-01"])
    (practiceOrg "Alpha" "Active" "2024-02-01" [netRel "N2" "2021-06-01"])
    rfl rfl rfl rfl rfl rfl rfl rfl (by decide)
